import Mathlib

/-!
Shallow embedding of presence-detector.py (class PresenceDetector).

The mutable object state of the Python class is modelled by the structure
World: the clients_seen dict (an insertion-ordered association list from
device mac to its integer offline countdown), the full-sync counter, and,
as observational instrumentation, the number of Home-Assistant see-calls
made so far (ncalls) together with a trace of those calls.  The outcome of
each outbound see-call is supplied by an oracle ha : Nat -> Bool indexed by
the call count, which models the remote hub: _ha_seen returns False both on
a transport exception and on a non-ok HTTP status, and in both cases the
observable effect on the object state is the same (counter forced to 0).

The ubus hearing-map JSON is modelled by the inductive JVal (numbers and
string-keyed objects, the only shapes the program touches); Python runtime
errors (KeyError, TypeError, json.JSONDecodeError) that would propagate out
of the poll loop are modelled by Except PyErr.
-/

namespace PresenceDetector

/-- JSON-ish values as consumed by the detector: numbers and objects.
Objects are insertion-ordered association lists, like Python dicts. -/
inductive JVal : Type where
  | num (n : Int)
  | obj (fields : List (String × JVal))

/-- A Python runtime error escaping the poll loop. -/
inductive PyErr : Type where
  | jsonError
  | keyError
  | typeError
deriving DecidableEq, Repr

/-- The per-device presence table: Python dict from mac to countdown. -/
abbrev Table := List (String × Int)

/-- Dict lookup (first matching key, as in a Python dict with unique keys). -/
def alGet (t : Table) (k : String) : Option Int :=
  match t with
  | [] => none
  | (k₂, v) :: rest => if k₂ = k then some v else alGet rest k

/-- Dict assignment: replace the value in place (keeping insertion order) or
append a fresh key at the end, matching Python dict update semantics. -/
def alSet (t : Table) (k : String) (v : Int) : Table :=
  match t with
  | [] => [(k, v)]
  | (k₂, v₂) :: rest => if k₂ = k then (k₂, v) :: rest else (k₂, v₂) :: alSet rest k v

/-- Dict deletion of a key (del t[k]). -/
def alErase (t : Table) (k : String) : Table :=
  match t with
  | [] => []
  | (k₂, v₂) :: rest => if k₂ = k then rest else (k₂, v₂) :: alErase rest k

/-- Lookup in a JSON object. -/
def alGetJ (fields : List (String × JVal)) (k : String) : Option JVal :=
  match fields with
  | [] => none
  | (k₂, v) :: rest => if k₂ = k then some v else alGetJ rest k

/-- The relevant configuration surface (Settings), with the fields that
influence the state machine.  Fields that only shape the HTTP request body
(hass_url, hass_token, location, away, source, params) are absorbed into
the hub oracle. -/
structure Settings : Type where
  ssid : String
  do_not_track : List String
  must_track : List String
  only_track : List String
  device_min_dawn_score : Int
  device_must_5g : Bool
  offline_after : Int
  full_sync_polls : Int

/-- The observable state of a PresenceDetector object: the _clients_seen
dict and the _full_sync_counter, plus the call-count and call-trace
instrumentation of the hub boundary (each trace entry is
(client, seen, ok)). -/
structure World : Type where
  clients_seen : Table
  full_sync_counter : Int
  ncalls : Nat
  trace : List (String × Bool × Bool)

/-- PresenceDetector._ha_seen: performs one device_tracker/see call whose
outcome is ha w.ncalls.  Any exception and any non-ok status both return
false and force the full-sync counter to 0; a true outcome leaves the
counter alone.  Returns the boolean result together with the new state. -/
def ha_seen (ha : Nat → Bool) (w : World) (client : String) (seen : Bool) :
    Bool × World :=
  let ok := ha w.ncalls
  (ok,
    { w with
      ncalls := w.ncalls + 1
      trace := w.trace ++ [(client, seen, ok)]
      full_sync_counter := if ok then w.full_sync_counter else 0 })

/-- The body of the for-loop in PresenceDetector.full_sync: iterate the
frozen copy of _clients_seen and re-send a present notification for every
client whose countdown equals offline_after, accumulating sync_ok with
a non-short-circuiting boolean and. -/
def fullSyncLoop (s : Settings) (ha : Nat → Bool) :
    List (String × Int) → Bool × World → Bool × World
  | [], acc => acc
  | (client, v) :: rest, acc =>
    if v = s.offline_after then
      let r := ha_seen ha acc.2 client true
      fullSyncLoop s ha rest (acc.1 && r.1, r.2)
    else fullSyncLoop s ha rest acc

/-- PresenceDetector.full_sync: decrement the counter; when it reaches 0 or
below, run the resync pass and reset the counter to full_sync_polls only
when every call of the pass succeeded. -/
def full_sync (s : Settings) (ha : Nat → Bool) (w : World) : World :=
  let w₁ := { w with full_sync_counter := w.full_sync_counter - 1 }
  if w₁.full_sync_counter ≤ 0 then
    let r := fullSyncLoop s ha w₁.clients_seen (true, w₁)
    if r.1 then { r.2 with full_sync_counter := s.full_sync_polls } else r.2
  else w₁

/-- PresenceDetector.set_client_away: send the away notification; on
success delete the client from the table, on failure set its countdown
to 1 so the call is retried next poll. -/
def set_client_away (ha : Nat → Bool) (w : World) (client : String) : World :=
  let r := ha_seen ha w client false
  if r.1 then { r.2 with clients_seen := alErase r.2.clients_seen client }
  else { r.2 with clients_seen := alSet r.2.clients_seen client 1 }

/-- PresenceDetector.set_client_home: apply the do_not_track / only_track
filters; for a not-yet-tracked client send the present notification and
insert it with countdown offline_after only on success; for a tracked
client just refresh the countdown (branch unreachable from run, kept as in
the source). -/
def set_client_home (s : Settings) (ha : Nat → Bool) (w : World)
    (client : String) (ap_addr : String) : World :=
  if client ∈ s.do_not_track then w
  else if s.only_track ≠ [] ∧ client ∉ s.only_track then w
  else if alGet w.clients_seen client = none then
    let r := ha_seen ha w client true
    if r.1 then { r.2 with clients_seen := alSet r.2.clients_seen client s.offline_after }
    else r.2
  else { w with clients_seen := alSet w.clients_seen client s.offline_after }

/-- Evaluation of json_now[ap]["score"]: the per-ap value must be an object
with a numeric "score" entry; otherwise the corresponding Python access
raises. -/
def jGetScore (j : JVal) : Except PyErr Int :=
  match j with
  | JVal.num _ => Except.error PyErr.typeError
  | JVal.obj fields =>
    match alGetJ fields "score" with
    | none => Except.error PyErr.keyError
    | some (JVal.num n) => Except.ok n
    | some (JVal.obj _) => Except.error PyErr.typeError

/-- The loop of PresenceDetector._get_ap_highest_score, carrying the
current best (ap, score) pair, initialised to ("", -99); strict greater
comparison, so ties keep the first-encountered ap. -/
def apLoop : List (String × JVal) → String × Int → Except PyErr (String × Int)
  | [], best => Except.ok best
  | (ap, j) :: rest, best =>
    match jGetScore j with
    | Except.error e => Except.error e
    | Except.ok sc => if sc > best.2 then apLoop rest (ap, sc) else apLoop rest best

/-- PresenceDetector._get_ap_highest_score: iterating a non-object raises
TypeError; otherwise run the best-ap loop from ("", -99). -/
def get_ap_highest_score (json_now : JVal) : Except PyErr (String × Int) :=
  match json_now with
  | JVal.num _ => Except.error PyErr.typeError
  | JVal.obj fields => apLoop fields ("", -99)

/-- One iteration of the first loop in PresenceDetector.run, for one entry
(client, data) of seen_now: the device_must_5g gate reads the literal key
"channel_utilization" of data (seen_now[client]["channel_utilization"]) and
skips the client when that value is a number below 15; then the best ap and
score are computed and set_client_home is called only for a client that is
not yet tracked and whose best score reaches device_min_dawn_score. -/
def processSeenClient (s : Settings) (ha : Nat → Bool) (w : World)
    (entry : String × JVal) : Except PyErr World :=
  let go : Except PyErr World :=
    match get_ap_highest_score entry.2 with
    | Except.error e => Except.error e
    | Except.ok best =>
      if alGet w.clients_seen entry.1 ≠ none ∨ best.2 < s.device_min_dawn_score then
        Except.ok w
      else Except.ok (set_client_home s ha w entry.1 best.1)
  if s.device_must_5g then
    match entry.2 with
    | JVal.num _ => Except.error PyErr.typeError
    | JVal.obj fields =>
      match alGetJ fields "channel_utilization" with
      | none => Except.error PyErr.keyError
      | some (JVal.num u) => if u < 15 then Except.ok w else go
      | some (JVal.obj _) => Except.error PyErr.typeError
  else go

/-- The first loop of PresenceDetector.run over the snapshot entries. -/
def seenLoop (s : Settings) (ha : Nat → Bool) :
    List (String × JVal) → World → Except PyErr World
  | [], w => Except.ok w
  | e :: rest, w =>
    match processSeenClient s ha w e with
    | Except.error er => Except.error er
    | Except.ok w₂ => seenLoop s ha rest w₂

/-- One iteration of the second loop of PresenceDetector.run, for one key
of the frozen copy of _clients_seen: a client present in seen_now is left
alone; otherwise its countdown is decremented and, when the result is not
positive, set_client_away runs.  A missing key would be a Python KeyError
(unreachable from the poll loop). -/
def awayStep (ha : Nat → Bool) (seenKeys : List String) (w : World)
    (client : String) : Except PyErr World :=
  if client ∈ seenKeys then Except.ok w
  else
    match alGet w.clients_seen client with
    | none => Except.error PyErr.keyError
    | some v =>
      let w₂ := { w with clients_seen := alSet w.clients_seen client (v - 1) }
      if v - 1 > 0 then Except.ok w₂
      else Except.ok (set_client_away ha w₂ client)

/-- The second loop of PresenceDetector.run over the frozen key list. -/
def awayLoop (ha : Nat → Bool) (seenKeys : List String) :
    List String → World → Except PyErr World
  | [], w => Except.ok w
  | c :: rest, w =>
    match awayStep ha seenKeys w c with
    | Except.error e => Except.error e
    | Except.ok w₂ => awayLoop ha seenKeys rest w₂

/-- One body of the while-loop of PresenceDetector.run after the snapshot
has been obtained: full_sync, then the seen loop, then the away loop over
the keys of the table as frozen after the seen loop. -/
def pollCore (s : Settings) (ha : Nat → Bool) (seen_now : List (String × JVal))
    (w : World) : Except PyErr World :=
  let w₁ := full_sync s ha w
  match seenLoop s ha seen_now w₁ with
  | Except.error e => Except.error e
  | Except.ok w₂ => awayLoop ha (seen_now.map Prod.fst) (w₂.clients_seen.map Prod.fst) w₂

/-- The observable outcome of the ubus subprocess: its exit code and its
stdout after json parsing (none when stdout is not valid JSON). -/
structure FetchOutcome : Type where
  returncode : Int
  parsed : Option JVal

/-- PresenceDetector._get_all_online_clients: a non-zero exit code is only
logged; the function then unconditionally parses stdout and indexes the
result by the configured ssid, so malformed output or a missing ssid key
raises (json.JSONDecodeError / KeyError / TypeError), and only a JSON
object under the ssid key yields a snapshot. -/
def get_all_online_clients (s : Settings) (f : FetchOutcome) :
    Except PyErr (List (String × JVal)) :=
  match f.parsed with
  | none => Except.error PyErr.jsonError
  | some (JVal.num _) => Except.error PyErr.typeError
  | some (JVal.obj resp) =>
    match alGetJ resp s.ssid with
    | none => Except.error PyErr.keyError
    | some (JVal.num _) => Except.error PyErr.typeError
    | some (JVal.obj clients) => Except.ok clients

/-- One full poll cycle of PresenceDetector.run: obtain the snapshot (an
error here propagates and aborts the loop), then run the cycle body. -/
def pollStep (s : Settings) (ha : Nat → Bool) (f : FetchOutcome) (w : World) :
    Except PyErr World :=
  match get_all_online_clients s f with
  | Except.error e => Except.error e
  | Except.ok seen_now => pollCore s ha seen_now w

/-- PresenceDetector.__init__: the table starts with every must_track mac
at countdown 0 and the counter at full_sync_polls. -/
def initWorld (s : Settings) : World :=
  { clients_seen := s.must_track.foldl (fun t mac => alSet t mac 0) []
    full_sync_counter := s.full_sync_polls
    ncalls := 0
    trace := [] }

/-- The states of the detector reachable at poll-cycle boundaries: the
initial state, and any state produced by a successful poll cycle (a cycle
whose Python exceptions would abort the loop produces no further state). -/
inductive Reachable (s : Settings) (ha : Nat → Bool) : World → Prop where
  | init : Reachable s ha (initWorld s)
  | step {w w₂ : World} (f : FetchOutcome) :
      Reachable s ha w → pollStep s ha f w = Except.ok w₂ → Reachable s ha w₂

/-- A sequence of poll-cycle bodies, one per snapshot in the list. -/
def pollSeq (s : Settings) (ha : Nat → Bool) :
    List (List (String × JVal)) → World → Except PyErr World
  | [], w => Except.ok w
  | snap :: rest, w =>
    match pollCore s ha snap w with
    | Except.error e => Except.error e
    | Except.ok w₂ => pollSeq s ha rest w₂

/-- All outcomes of the calls a resync pass makes when it starts at call
index n: one call, at successive indices, for each table entry whose
countdown equals off, mirroring the eligibility test of full_sync. -/
def passOk (ha : Nat → Bool) (off : Int) (n : Nat) : List (String × Int) → Bool
  | [] => true
  | (_, v) :: rest =>
    if v = off then ha n && passOk ha off (n + 1) rest else passOk ha off n rest

/-- Concrete configurations and inputs used to evaluate the embedding. -/
def sBase : Settings :=
  { ssid := "net", do_not_track := [], must_track := [], only_track := []
    device_min_dawn_score := 0, device_must_5g := false
    offline_after := 3, full_sync_polls := 10 }

def haTrue : Nat → Bool := fun _ => true

def haFalse : Nat → Bool := fun _ => false

/-- A well-formed hearing-map entry for device "aa" on one ap with score 50
and channel utilization 30. -/
def snapGood : List (String × JVal) :=
  [("aa", JVal.obj [("ap1", JVal.obj
      [("score", JVal.num 50), ("channel_utilization", JVal.num 30)])])]

/-- Like snapGood but with channel utilization 10 (below the 5g gate). -/
def snapUtil10 : List (String × JVal) :=
  [("aa", JVal.obj [("ap1", JVal.obj
      [("score", JVal.num 50), ("channel_utilization", JVal.num 10)])])]

/-- Configuration pinning device "aa" via must_track. -/
def s7 : Settings := { sBase with must_track := ["aa"] }

/-- Configuration pinning "aa" with offline_after set to 0. -/
def s8 : Settings := { sBase with must_track := ["aa"], offline_after := 0 }

/-- Configuration with the device_must_5g gate enabled. -/
def s9 : Settings := { sBase with device_must_5g := true }

/-- A failing source fetch: exit code 1 and stdout that is not JSON. -/
def fetchBad : FetchOutcome := ⟨1, none⟩

/-- A successful source fetch whose hearing map holds no client under the
configured network name "net". -/
def fetchEmptyNet : FetchOutcome := ⟨0, some (JVal.obj [("net", JVal.obj [])])⟩

/-- The state after one empty poll from initWorld s7 with an all-ok hub. -/
def w7 : World := ⟨[], 9, 1, [("aa", false, true)]⟩

/-- The state after one empty poll from initWorld s8 with a failing hub. -/
def w8 : World := ⟨[("aa", 1)], 0, 1, [("aa", false, false)]⟩

/-! ### Association-list lemmas -/

theorem alGet_alSet_self (t : Table) (k : String) (v : Int) :
    alGet (alSet t k v) k = some v := by
  induction t with
  | nil => simp [alSet, alGet]
  | cons p rest ih =>
    obtain ⟨k₂, v₂⟩ := p
    by_cases h : k₂ = k
    · simp [alSet, alGet, h]
    · simp [alSet, alGet, h, ih]

theorem alGet_alSet_ne (t : Table) (k : String) (v : Int) (k₃ : String)
    (h : k₃ ≠ k) : alGet (alSet t k v) k₃ = alGet t k₃ := by
  induction t with
  | nil => simp [alSet, alGet, Ne.symm h]
  | cons p rest ih =>
    obtain ⟨k₂, v₂⟩ := p
    by_cases h₂ : k₂ = k
    · subst h₂
      simp [alSet, alGet, Ne.symm h]
    · simp [alSet, alGet, h₂, ih]

theorem mem_alSet (t : Table) (k : String) (v : Int) (p : String × Int)
    (h : p ∈ alSet t k v) : p ∈ t ∨ p = (k, v) := by
  induction t with
  | nil => simp [alSet] at h; simp [h]
  | cons q rest ih =>
    obtain ⟨k₂, v₂⟩ := q
    by_cases h₂ : k₂ = k
    · subst h₂
      simp [alSet] at h
      rcases h with h | h
      · right; simp [h]
      · left; simp [h]
    · simp [alSet, h₂] at h
      rcases h with h | h
      · left; simp [h]
      · rcases ih h with h₃ | h₃
        · left; simp [h₃]
        · right; exact h₃

theorem mem_alErase (t : Table) (k : String) (p : String × Int)
    (h : p ∈ alErase t k) : p ∈ t := by
  induction t with
  | nil => simp [alErase] at h
  | cons q rest ih =>
    obtain ⟨k₂, v₂⟩ := q
    by_cases h₂ : k₂ = k
    · simp [alErase, h₂] at h
      simp [h]
    · simp [alErase, h₂] at h
      rcases h with h | h
      · simp [h]
      · simp [ih h]

theorem alSet_alSet (t : Table) (k : String) (a b : Int) :
    alSet (alSet t k a) k b = alSet t k b := by
  induction t with
  | nil => simp [alSet]
  | cons q rest ih =>
    obtain ⟨k₂, v₂⟩ := q
    by_cases h₂ : k₂ = k
    · simp [alSet, h₂]
    · simp [alSet, h₂, ih]

theorem alErase_alSet (t : Table) (k : String) (a : Int) :
    alErase (alSet t k a) k = alErase t k := by
  induction t with
  | nil => simp [alSet, alErase]
  | cons q rest ih =>
    obtain ⟨k₂, v₂⟩ := q
    by_cases h₂ : k₂ = k
    · simp [alSet, alErase, h₂]
    · simp [alSet, alErase, h₂, ih]

theorem alGet_mem (t : Table) (k : String) (v : Int) (h : alGet t k = some v) :
    (k, v) ∈ t := by
  induction t with
  | nil => simp [alGet] at h
  | cons q rest ih =>
    obtain ⟨k₂, v₂⟩ := q
    by_cases h₂ : k₂ = k
    · subst h₂
      simp [alGet] at h
      simp [h]
    · simp [alGet, h₂] at h
      simp [ih h]

theorem alGet_eq_none_of_not_mem (t : Table) (k : String)
    (h : k ∉ t.map Prod.fst) : alGet t k = none := by
  induction t with
  | nil => rfl
  | cons q rest ih =>
    obtain ⟨k₂, v₂⟩ := q
    simp only [List.map_cons, List.mem_cons, not_or] at h
    simp [alGet, Ne.symm h.1, ih h.2]

theorem alGet_alErase_self (t : Table) (k : String)
    (h : (t.map Prod.fst).Nodup) : alGet (alErase t k) k = none := by
  induction t with
  | nil => rfl
  | cons q rest ih =>
    obtain ⟨k₂, v₂⟩ := q
    simp only [List.map_cons, List.nodup_cons] at h
    by_cases h₂ : k₂ = k
    · subst h₂
      simp [alErase]
      exact alGet_eq_none_of_not_mem rest k₂ h.1
    · simp [alErase, alGet, h₂]
      exact ih h.2

/-! ### Resync-pass lemmas -/

theorem fullSyncLoop_clients (s : Settings) (ha : Nat → Bool)
    (l : List (String × Int)) : ∀ (b : Bool) (w : World),
    (fullSyncLoop s ha l (b, w)).2.clients_seen = w.clients_seen := by
  induction l with
  | nil => intro b w; rfl
  | cons p rest ih =>
    intro b w
    obtain ⟨c, v⟩ := p
    by_cases h : v = s.offline_after
    · simp only [fullSyncLoop, if_pos h]
      rw [ih]
      rfl
    · simp only [fullSyncLoop, if_neg h]
      exact ih b w

theorem fullSyncLoop_ok (s : Settings) (ha : Nat → Bool)
    (l : List (String × Int)) : ∀ (b : Bool) (w : World),
    (fullSyncLoop s ha l (b, w)).1 = (b && passOk ha s.offline_after w.ncalls l) := by
  induction l with
  | nil => intro b w; simp [fullSyncLoop, passOk]
  | cons p rest ih =>
    intro b w
    obtain ⟨c, v⟩ := p
    by_cases h : v = s.offline_after
    · simp only [fullSyncLoop, passOk, if_pos h]
      rw [ih]
      simp [ha_seen, Bool.and_assoc]
    · simp only [fullSyncLoop, passOk, if_neg h]
      exact ih b w

theorem fullSyncLoop_counter (s : Settings) (ha : Nat → Bool)
    (l : List (String × Int)) : ∀ (b : Bool) (w : World),
    (fullSyncLoop s ha l (b, w)).2.full_sync_counter =
      if passOk ha s.offline_after w.ncalls l then w.full_sync_counter else 0 := by
  induction l with
  | nil => intro b w; simp [fullSyncLoop, passOk]
  | cons p rest ih =>
    intro b w
    obtain ⟨c, v⟩ := p
    by_cases h : v = s.offline_after
    · simp only [fullSyncLoop, passOk, if_pos h]
      rw [ih]
      cases ho : ha w.ncalls
      · simp [ha_seen, ho]
      · simp [ha_seen, ho]
    · simp only [fullSyncLoop, passOk, if_neg h]
      exact ih b w

/-- Claim C5: after a full-resync pass (the counter, once decremented,
has reached 0 or below), the full-sync counter is reset to full_sync_polls
exactly when every notification of the pass succeeded, and is left at 0
otherwise; passOk collects the outcomes of precisely the calls the pass
makes (one per table entry whose countdown equals offline_after). -/
theorem c5_resync_all_or_nothing (s : Settings) (ha : Nat → Bool) (w : World)
    (h : w.full_sync_counter ≤ 1) :
    (full_sync s ha w).full_sync_counter =
      if passOk ha s.offline_after w.ncalls w.clients_seen then s.full_sync_polls
      else 0 := by
  have h1 : w.full_sync_counter - 1 ≤ 0 := by omega
  simp only [full_sync, if_pos h1]
  cases hp : passOk ha s.offline_after w.ncalls w.clients_seen
  · have hok := fullSyncLoop_ok s ha w.clients_seen true
      { w with full_sync_counter := w.full_sync_counter - 1 }
    have hcnt := fullSyncLoop_counter s ha w.clients_seen true
      { w with full_sync_counter := w.full_sync_counter - 1 }
    simp only [hp, Bool.and_false] at hok hcnt
    simp [hok, hcnt]
  · have hok := fullSyncLoop_ok s ha w.clients_seen true
      { w with full_sync_counter := w.full_sync_counter - 1 }
    simp only [hp, Bool.and_true] at hok
    simp [hok]

/-- Witness for C5: a concrete pass over one confirmed device with an
all-ok hub resets the counter to full_sync_polls. -/
theorem c5_witness :
    ((⟨[("aa", 3)], 1, 0, []⟩ : World).full_sync_counter ≤ 1) ∧
    (full_sync sBase haTrue ⟨[("aa", 3)], 1, 0, []⟩).full_sync_counter =
      (if passOk haTrue sBase.offline_after 0 [("aa", 3)] then sBase.full_sync_polls
       else 0) :=
  ⟨by decide, c5_resync_all_or_nothing sBase haTrue ⟨[("aa", 3)], 1, 0, []⟩ (by decide)⟩

/-! ### Admission -/

/-- Claim C6: for a previously-untracked client that passes every admission
filter (5g gate off, best score at least device_min_dawn_score, not denied,
allowed by only_track), the run loop reaches set_client_home, which
attempts the present notification (the new trace entry) and inserts the
client with countdown offline_after exactly when that call succeeds; on
failure the table is left unchanged, so the client is not inserted. -/
theorem c6_admit_notify_before_insert (s : Settings) (ha : Nat → Bool)
    (w : World) (c : String) (data : JVal) (ap : String) (sc : Int)
    (h5 : s.device_must_5g = false)
    (hu : alGet w.clients_seen c = none)
    (hd : c ∉ s.do_not_track)
    (ho : s.only_track = [] ∨ c ∈ s.only_track)
    (hsc : get_ap_highest_score data = Except.ok (ap, sc))
    (hmin : ¬sc < s.device_min_dawn_score) :
    processSeenClient s ha w (c, data) = Except.ok (set_client_home s ha w c ap) ∧
    (set_client_home s ha w c ap).trace = w.trace ++ [(c, true, ha w.ncalls)] ∧
    (ha w.ncalls = true →
      alGet (set_client_home s ha w c ap).clients_seen c = some s.offline_after) ∧
    (ha w.ncalls = false →
      (set_client_home s ha w c ap).clients_seen = w.clients_seen) := by
  have honly : ¬(s.only_track ≠ [] ∧ c ∉ s.only_track) := by
    rcases ho with ho | ho
    · intro hh; exact hh.1 ho
    · intro hh; exact hh.2 ho
  have hhome : set_client_home s ha w c ap =
      (if (ha_seen ha w c true).1 then
        { (ha_seen ha w c true).2 with
          clients_seen := alSet (ha_seen ha w c true).2.clients_seen c s.offline_after }
       else (ha_seen ha w c true).2) := by
    simp only [set_client_home, if_neg hd, if_neg honly, if_pos hu]
  refine ⟨?_, ?_, ?_, ?_⟩
  · simp only [processSeenClient, h5, Bool.false_eq_true, if_neg (by simp : ¬False), hsc]
    simp [hu, hmin]
  · rw [hhome]
    cases hb : ha w.ncalls
    · simp [ha_seen, hb]
    · simp [ha_seen, hb]
  · intro hb
    rw [hhome]
    simp only [ha_seen, hb]
    simp [alGet_alSet_self]
  · intro hb
    rw [hhome]
    simp [ha_seen, hb]

/-- Witness for C6: concrete admission of device "aa" with an all-ok hub,
starting from the empty table. -/
theorem c6_witness :
    processSeenClient sBase haTrue (⟨[], 10, 0, []⟩ : World)
        ("aa", JVal.obj [("ap1", JVal.obj [("score", JVal.num 50),
          ("channel_utilization", JVal.num 30)])]) =
      Except.ok (set_client_home sBase haTrue ⟨[], 10, 0, []⟩ "aa" "ap1") ∧
    (set_client_home sBase haTrue ⟨[], 10, 0, []⟩ "aa" "ap1").trace =
      [] ++ [("aa", true, haTrue 0)] ∧
    (haTrue 0 = true →
      alGet (set_client_home sBase haTrue ⟨[], 10, 0, []⟩ "aa" "ap1").clients_seen
        "aa" = some sBase.offline_after) ∧
    (haTrue 0 = false →
      (set_client_home sBase haTrue ⟨[], 10, 0, []⟩ "aa" "ap1").clients_seen = []) :=
  c6_admit_notify_before_insert sBase haTrue ⟨[], 10, 0, []⟩ "aa"
    (JVal.obj [("ap1", JVal.obj [("score", JVal.num 50),
      ("channel_utilization", JVal.num 30)])]) "ap1" 50
    rfl rfl (by decide) (Or.inl rfl) rfl (by decide)

/-- Claim C10: an empty per-access-point map yields best pair ("", -99),
and a previously-untracked device carrying an empty map is not admitted
(processSeenClient leaves the state unchanged and makes no call) whenever
device_min_dawn_score exceeds -99; the 5g gate is off, as it must be for
the best-score path to be reached at all on such input. -/
theorem c10_empty_ap_map (s : Settings) (ha : Nat → Bool) (w : World)
    (c : String)
    (h5 : s.device_must_5g = false)
    (hmin : -99 < s.device_min_dawn_score) :
    get_ap_highest_score (JVal.obj []) = Except.ok ("", -99) ∧
    processSeenClient s ha w (c, JVal.obj []) = Except.ok w := by
  refine ⟨rfl, ?_⟩
  simp only [processSeenClient, h5, Bool.false_eq_true, if_neg (by simp : ¬False)]
  simp [get_ap_highest_score, apLoop, hmin]

/-- Witness for C10: with the default threshold raised to 1, an unseen
device with an empty ap map is ignored. -/
theorem c10_witness :
    ({ sBase with device_min_dawn_score := 1 } : Settings).device_must_5g = false ∧
    (-99 : Int) < ({ sBase with device_min_dawn_score := 1 } : Settings).device_min_dawn_score ∧
    get_ap_highest_score (JVal.obj []) = Except.ok ("", -99) ∧
    processSeenClient { sBase with device_min_dawn_score := 1 } haTrue
      (⟨[], 10, 0, []⟩ : World) ("bb", JVal.obj []) =
      Except.ok (⟨[], 10, 0, []⟩ : World) := by
  refine ⟨by decide, by decide, ?_, ?_⟩
  · exact (c10_empty_ap_map { sBase with device_min_dawn_score := 1 } haTrue
      ⟨[], 10, 0, []⟩ "bb" rfl (by decide)).1
  · exact (c10_empty_ap_map { sBase with device_min_dawn_score := 1 } haTrue
      ⟨[], 10, 0, []⟩ "bb" rfl (by decide)).2

/-! ### Poll-cycle evaluations at the failing inputs -/

/-- Claim C1 (failing input): device "aa" is tracked with countdown 1 and
appears in the snapshot with a high score, yet the poll cycle leaves its
countdown at 1 (only the full-sync counter decrements; no call is made). The
claimed unconditional refresh to offline_after = 3 does not happen: the
seen loop of run skips every already-tracked client before reaching
set_client_home, and the away loop skips clients present in the snapshot. -/
theorem c1_no_refresh_eval :
    pollCore sBase haTrue snapGood ⟨[("aa", 1)], 5, 0, []⟩ =
      Except.ok ⟨[("aa", 1)], 4, 0, []⟩ := rfl

/-- Claim C2 (failing input): with offline_after = 3 and an all-ok hub,
device "aa" is admitted (poll 1), absent twice (countdown 2 then 1), seen
again on poll 4 (countdown stays 1), and after a single further absent poll
the away notification is already sent and the device removed — the trace
gains the away call (second entry) after only one consecutive absent poll,
and the intermediate state after poll 4 still has countdown 1, not 3. -/
theorem c2_no_debounce_eval :
    pollSeq sBase haTrue [snapGood, [], [], snapGood] ⟨[], 10, 0, []⟩ =
      Except.ok ⟨[("aa", 1)], 6, 1, [("aa", true, true)]⟩ ∧
    pollSeq sBase haTrue [snapGood, [], [], snapGood, []] ⟨[], 10, 0, []⟩ =
      Except.ok ⟨[], 5, 2, [("aa", true, true), ("aa", false, true)]⟩ :=
  ⟨rfl, rfl⟩

/-- Claim C3 (counterexample): a source fetch with exit code 1 and
non-JSON stdout makes the poll cycle abort with the uncaught parse error,
while the behaviour the claim demands — proceeding with an empty snapshot —
would complete the cycle normally. -/
theorem c3_counterexample :
    pollStep sBase haTrue fetchBad ⟨[], 10, 0, []⟩ =
      Except.error PyErr.jsonError ∧
    pollCore sBase haTrue [] ⟨[], 10, 0, []⟩ = Except.ok ⟨[], 9, 0, []⟩ :=
  ⟨rfl, rfl⟩

/-- Claim C3 (amended): _get_all_online_clients only logs a bad exit code
and parses stdout regardless; stdout that is not JSON aborts the cycle with
jsonError, a JSON object without the configured network-name key aborts it
with keyError, and only an object found under that key lets the cycle
proceed — with exactly those clients, never with an empty snapshot. -/
theorem c3_fetch_error_fatal (s : Settings) (ha : Nat → Bool)
    (f : FetchOutcome) (w : World) :
    (f.parsed = none → pollStep s ha f w = Except.error PyErr.jsonError) ∧
    (∀ resp, f.parsed = some (JVal.obj resp) → alGetJ resp s.ssid = none →
      pollStep s ha f w = Except.error PyErr.keyError) ∧
    (∀ resp clients, f.parsed = some (JVal.obj resp) →
      alGetJ resp s.ssid = some (JVal.obj clients) →
      pollStep s ha f w = pollCore s ha clients w) := by
  refine ⟨?_, ?_, ?_⟩
  · intro hp
    simp [pollStep, get_all_online_clients, hp]
  · intro resp hp hk
    simp [pollStep, get_all_online_clients, hp, hk]
  · intro resp clients hp hk
    simp [pollStep, get_all_online_clients, hp, hk]

/-- Witness for the amended C3: the concrete malformed fetch aborts the
cycle with jsonError. -/
theorem c3_witness :
    pollStep sBase haTrue fetchBad ⟨[], 7, 0, []⟩ =
      Except.error PyErr.jsonError :=
  (c3_fetch_error_fatal sBase haTrue fetchBad ⟨[], 7, 0, []⟩).1 rfl

/-- Claim C9 (failing input): with device_must_5g enabled, a snapshot in
the hearing-map format the rest of run consumes (device "aa", one access
point with score 50 and channel utilization 10) makes the poll cycle raise
KeyError: the code indexes the per-access-point map itself with the literal
key "channel_utilization" instead of reading the utilization of the best
access point, so the device is not skipped — the whole poll crashes. -/
theorem c9_must5g_crash_eval :
    pollCore s9 haTrue snapUtil10 ⟨[], 10, 0, []⟩ =
      Except.error PyErr.keyError := rfl

/-! ### Pinned devices -/

theorem alGet_foldl_zero_preserved (l : List String) :
    ∀ (t : Table) (c : String), alGet t c = some 0 →
    alGet (l.foldl (fun t mac => alSet t mac 0) t) c = some 0 := by
  induction l with
  | nil => intro t c h; exact h
  | cons m rest ih =>
    intro t c h
    by_cases hm : m = c
    · subst hm
      exact ih (alSet t m 0) m (alGet_alSet_self t m 0)
    · refine ih (alSet t m 0) c ?_
      rw [alGet_alSet_ne t m 0 c (Ne.symm hm)]
      exact h

theorem alGet_foldl_zero (l : List String) :
    ∀ (t : Table) (c : String), c ∈ l →
    alGet (l.foldl (fun t mac => alSet t mac 0) t) c = some 0 := by
  induction l with
  | nil => intro t c h; cases h
  | cons m rest ih =>
    intro t c h
    rcases List.mem_cons.mp h with h | h
    · subst h
      exact alGet_foldl_zero_preserved rest (alSet t c 0) c (alGet_alSet_self t c 0)
    · exact ih (alSet t m 0) c h

/-- Claim C7 (counterexample): with "aa" pinned via must_track, "aa" starts
in the table at countdown 0, but the state reached after a single poll in
which "aa" is absent and the away call succeeds no longer contains "aa":
pinned devices are removed like any other device. -/
theorem c7_counterexample :
    alGet (initWorld s7).clients_seen "aa" = some 0 ∧
    Reachable s7 haTrue w7 ∧
    alGet w7.clients_seen "aa" = none :=
  ⟨rfl, Reachable.step fetchEmptyNet Reachable.init rfl, rfl⟩

/-- Claim C7 (amended): every must_track identifier is inserted into the
table with countdown 0 at startup, but thereafter it is tracked only until
its first successful away notification: set_client_away with a succeeding
hub call deletes it from the table like any other device. -/
theorem c7_pinned_amended (s : Settings) (ha : Nat → Bool) (w : World)
    (c : String) (hc : c ∈ s.must_track) (hok : ha w.ncalls = true)
    (hnd : (w.clients_seen.map Prod.fst).Nodup) :
    alGet (initWorld s).clients_seen c = some 0 ∧
    alGet (set_client_away ha w c).clients_seen c = none := by
  constructor
  · exact alGet_foldl_zero s.must_track [] c hc
  · simp only [set_client_away, ha_seen, hok, if_true]
    exact alGet_alErase_self w.clients_seen c hnd

/-- Witness for the amended C7: concrete pinned device "aa" at startup and
its removal by a successful away call. -/
theorem c7_witness :
    ("aa" ∈ s7.must_track) ∧
    alGet (initWorld s7).clients_seen "aa" = some 0 ∧
    alGet (set_client_away haTrue ⟨[("aa", 0)], 10, 0, []⟩ "aa").clients_seen
      "aa" = none := by
  refine ⟨by decide, ?_⟩
  exact c7_pinned_amended s7 haTrue ⟨[("aa", 0)], 10, 0, []⟩ "aa"
    (by decide) rfl (by decide)

/-! ### Countdown-range invariant -/

theorem full_sync_clients (s : Settings) (ha : Nat → Bool) (w : World) :
    (full_sync s ha w).clients_seen = w.clients_seen := by
  unfold full_sync
  by_cases h : w.full_sync_counter - 1 ≤ 0
  · simp only [h, if_true]
    by_cases hr : (fullSyncLoop s ha w.clients_seen
        (true, { w with full_sync_counter := w.full_sync_counter - 1 })).1
    · simp only [hr, if_true]
      exact fullSyncLoop_clients s ha w.clients_seen true _
    · simp only [hr, if_false]
      exact fullSyncLoop_clients s ha w.clients_seen true _
  · simp only [h, if_false]

theorem rangeOk_set_client_home (s : Settings) (ha : Nat → Bool) (w : World)
    (c ap : String) (hoff : 0 ≤ s.offline_after)
    (h : ∀ p ∈ w.clients_seen, 0 ≤ p.2 ∧ p.2 ≤ s.offline_after) :
    ∀ p ∈ (set_client_home s ha w c ap).clients_seen,
      0 ≤ p.2 ∧ p.2 ≤ s.offline_after := by
  intro p hp
  unfold set_client_home at hp
  by_cases h1 : c ∈ s.do_not_track
  · rw [if_pos h1] at hp
    exact h p hp
  rw [if_neg h1] at hp
  by_cases h2 : s.only_track ≠ [] ∧ c ∉ s.only_track
  · rw [if_pos h2] at hp
    exact h p hp
  rw [if_neg h2] at hp
  by_cases h3 : alGet w.clients_seen c = none
  · rw [if_pos h3] at hp
    cases hb : ha w.ncalls
    · simp [ha_seen, hb] at hp
      exact h p hp
    · simp [ha_seen, hb] at hp
      rcases mem_alSet _ _ _ _ hp with hp | hp
      · exact h p hp
      · subst hp
        exact ⟨hoff, le_refl _⟩
  · rw [if_neg h3] at hp
    rcases mem_alSet _ _ _ _ hp with hp | hp
    · exact h p hp
    · subst hp
      exact ⟨hoff, le_refl _⟩

theorem processSeenClient_ok (s : Settings) (ha : Nat → Bool) (w : World)
    (e : String × JVal) (w₂ : World)
    (hp : processSeenClient s ha w e = Except.ok w₂) :
    w₂ = w ∨ ∃ ap, w₂ = set_client_home s ha w e.1 ap := by
  unfold processSeenClient at hp
  cases hsc : get_ap_highest_score e.2 with
  | error er =>
    simp only [hsc] at hp
    by_cases h5 : s.device_must_5g = true
    · simp only [h5, if_true] at hp
      cases he : e.2 with
      | num n => simp only [he] at hp; exact absurd hp (by simp)
      | obj fields =>
        simp only [he] at hp
        cases hcu : alGetJ fields "channel_utilization" with
        | none => simp only [hcu] at hp; exact absurd hp (by simp)
        | some jv =>
          simp only [hcu] at hp
          cases jv with
          | num u =>
            by_cases hu : u < 15
            · simp only [hu, if_true] at hp
              cases hp
              exact Or.inl rfl
            · simp only [hu, if_false] at hp
              exact absurd hp (by simp)
          | obj f₂ => exact absurd hp (by simp)
    · simp only [Bool.not_eq_true] at h5
      simp only [h5] at hp
      exact absurd hp (by simp)
  | ok best =>
    simp only [hsc] at hp
    have hgo : ∀ (hq : (if alGet w.clients_seen e.1 ≠ none ∨
          best.2 < s.device_min_dawn_score then (Except.ok w : Except PyErr World)
        else Except.ok (set_client_home s ha w e.1 best.1)) = Except.ok w₂),
        w₂ = w ∨ ∃ ap, w₂ = set_client_home s ha w e.1 ap := by
      intro hq
      by_cases hcond : alGet w.clients_seen e.1 ≠ none ∨
          best.2 < s.device_min_dawn_score
      · rw [if_pos hcond] at hq
        cases hq
        exact Or.inl rfl
      · rw [if_neg hcond] at hq
        cases hq
        exact Or.inr ⟨best.1, rfl⟩
    by_cases h5 : s.device_must_5g = true
    · simp only [h5, if_true] at hp
      cases he : e.2 with
      | num n => simp only [he] at hp; exact absurd hp (by simp)
      | obj fields =>
        simp only [he] at hp
        cases hcu : alGetJ fields "channel_utilization" with
        | none => simp only [hcu] at hp; exact absurd hp (by simp)
        | some jv =>
          simp only [hcu] at hp
          cases jv with
          | num u =>
            by_cases hu : u < 15
            · simp only [hu, if_true] at hp
              cases hp
              exact Or.inl rfl
            · simp only [hu, if_false] at hp
              exact hgo hp
          | obj f₂ => exact absurd hp (by simp)
    · simp only [Bool.not_eq_true] at h5
      simp only [h5] at hp
      exact hgo hp

theorem rangeOk_processSeenClient (s : Settings) (ha : Nat → Bool) (w : World)
    (e : String × JVal) (w₂ : World) (hoff : 0 ≤ s.offline_after)
    (h : ∀ p ∈ w.clients_seen, 0 ≤ p.2 ∧ p.2 ≤ s.offline_after)
    (hp : processSeenClient s ha w e = Except.ok w₂) :
    ∀ p ∈ w₂.clients_seen, 0 ≤ p.2 ∧ p.2 ≤ s.offline_after := by
  rcases processSeenClient_ok s ha w e w₂ hp with hw | ⟨ap, hw⟩
  · subst hw
    exact h
  · subst hw
    exact rangeOk_set_client_home s ha w _ _ hoff h

theorem rangeOk_seenLoop (s : Settings) (ha : Nat → Bool)
    (l : List (String × JVal)) : ∀ (w w₂ : World), 0 ≤ s.offline_after →
    (∀ p ∈ w.clients_seen, 0 ≤ p.2 ∧ p.2 ≤ s.offline_after) →
    seenLoop s ha l w = Except.ok w₂ →
    ∀ p ∈ w₂.clients_seen, 0 ≤ p.2 ∧ p.2 ≤ s.offline_after := by
  induction l with
  | nil =>
    intro w w₂ hoff h hp
    cases hp
    exact h
  | cons e rest ih =>
    intro w w₂ hoff h hp
    unfold seenLoop at hp
    split at hp
    · exact absurd hp (by simp)
    · rename_i w₃ hw₃
      exact ih w₃ w₂ hoff (rangeOk_processSeenClient s ha w e w₃ hoff h hw₃) hp

theorem set_client_away_clients (ha : Nat → Bool) (w : World) (c : String) :
    (set_client_away ha w c).clients_seen =
      if ha w.ncalls then alErase w.clients_seen c else alSet w.clients_seen c 1 := by
  unfold set_client_away ha_seen
  cases hb : ha w.ncalls <;> simp [hb]

theorem rangeOk_awayStep (ha : Nat → Bool) (seenKeys : List String) (w : World)
    (c : String) (off : Int) (w₂ : World) (hoff : 1 ≤ off)
    (h : ∀ p ∈ w.clients_seen, 0 ≤ p.2 ∧ p.2 ≤ off)
    (hp : awayStep ha seenKeys w c = Except.ok w₂) :
    ∀ p ∈ w₂.clients_seen, 0 ≤ p.2 ∧ p.2 ≤ off := by
  unfold awayStep at hp
  by_cases hc : c ∈ seenKeys
  · simp only [hc, if_true] at hp
    cases hp
    exact h
  · simp only [hc, if_false] at hp
    cases hv : alGet w.clients_seen c with
    | none => rw [hv] at hp; exact absurd hp (by simp)
    | some v =>
      rw [hv] at hp
      have hvb : 0 ≤ v ∧ v ≤ off := h _ (alGet_mem _ _ _ hv)
      by_cases hgt : v - 1 > 0
      · simp only [hgt, if_true] at hp
        cases hp
        intro p hp
        rcases mem_alSet _ _ _ _ hp with hp | hp
        · exact h p hp
        · subst hp
          constructor <;> [omega; omega]
      · simp only [hgt, if_false] at hp
        cases hp
        intro p hp
        rw [set_client_away_clients] at hp
        cases hb : ha w.ncalls
        · simp [hb] at hp
          rw [alSet_alSet] at hp
          rcases mem_alSet _ _ _ _ hp with hp | hp
          · exact h p hp
          · subst hp
            exact ⟨by omega, hoff⟩
        · simp [hb] at hp
          rw [alErase_alSet] at hp
          exact h p (mem_alErase _ _ _ hp)

theorem rangeOk_awayLoop (ha : Nat → Bool) (seenKeys : List String)
    (off : Int) (l : List String) : ∀ (w w₂ : World), 1 ≤ off →
    (∀ p ∈ w.clients_seen, 0 ≤ p.2 ∧ p.2 ≤ off) →
    awayLoop ha seenKeys l w = Except.ok w₂ →
    ∀ p ∈ w₂.clients_seen, 0 ≤ p.2 ∧ p.2 ≤ off := by
  induction l with
  | nil =>
    intro w w₂ hoff h hp
    cases hp
    exact h
  | cons c rest ih =>
    intro w w₂ hoff h hp
    unfold awayLoop at hp
    split at hp
    · exact absurd hp (by simp)
    · rename_i w₃ hw₃
      exact ih w₃ w₂ hoff (rangeOk_awayStep ha seenKeys w c off w₃ hoff h hw₃) hp

theorem mem_initWorld (l : List String) :
    ∀ (t : Table) (p : String × Int),
    p ∈ l.foldl (fun t mac => alSet t mac 0) t → p ∈ t ∨ p.2 = 0 := by
  induction l with
  | nil =>
    intro t p hp
    exact Or.inl hp
  | cons m rest ih =>
    intro t p hp
    rcases ih (alSet t m 0) p hp with hp | hp
    · rcases mem_alSet _ _ _ _ hp with hp | hp
      · exact Or.inl hp
      · subst hp
        exact Or.inr rfl
    · exact Or.inr hp

/-- Claim C8 (amended): provided offline_after is at least 1, every state
reachable at a poll-cycle boundary keeps every countdown of the presence
table inside the closed interval from 0 to offline_after.  (The claim as
stated, over every configuration, fails when offline_after = 0: a failed
away notification stores the retry marker 1, outside the interval.) -/
theorem c8_countdown_range (s : Settings) (ha : Nat → Bool) (w : World)
    (hoff : 1 ≤ s.offline_after) (hr : Reachable s ha w) :
    ∀ p ∈ w.clients_seen, 0 ≤ p.2 ∧ p.2 ≤ s.offline_after := by
  induction hr with
  | init =>
    intro p hp
    rcases mem_initWorld s.must_track [] p hp with hp | hp
    · cases hp
    · rw [hp]
      exact ⟨le_refl 0, by omega⟩
  | step f hr hstep ih =>
    rename_i wp wn
    unfold pollStep at hstep
    split at hstep
    · exact absurd hstep (by simp)
    · rename_i seen_now hseen
      unfold pollCore at hstep
      cases hsl : seenLoop s ha seen_now (full_sync s ha wp) with
      | error e =>
        simp only [hsl] at hstep
        exact absurd hstep (by simp)
      | ok w₃ =>
        simp only [hsl] at hstep
        have h₁ : ∀ p ∈ (full_sync s ha wp).clients_seen,
            0 ≤ p.2 ∧ p.2 ≤ s.offline_after := by
          rw [full_sync_clients]
          exact ih
        have h₂ := rangeOk_seenLoop s ha seen_now _ w₃ (by omega) h₁ hsl
        exact rangeOk_awayLoop ha (seen_now.map Prod.fst) s.offline_after
          (w₃.clients_seen.map Prod.fst) w₃ wn hoff h₂ hstep

/-- Witness for the amended C8: the concrete initial state of s7 satisfies
the interval bound. -/
theorem c8_witness :
    (1 : Int) ≤ s7.offline_after ∧
    ∀ p ∈ (initWorld s7).clients_seen, 0 ≤ p.2 ∧ p.2 ≤ s7.offline_after :=
  ⟨by decide, c8_countdown_range s7 haTrue (initWorld s7) (by decide) Reachable.init⟩

/-- Claim C8 (counterexample): with offline_after configured to 0 and a
failing hub, the state reached after one poll from the initial state of s8
holds countdown 1 for device "aa", outside the claimed interval
[0, offline_after] = [0, 0]. -/
theorem c8_counterexample :
    Reachable s8 haFalse w8 ∧
    w8.clients_seen = [("aa", 1)] ∧
    s8.offline_after = 0 ∧
    decide ((1 : Int) ≤ s8.offline_after) = false :=
  ⟨Reachable.step fetchEmptyNet Reachable.init rfl, rfl, rfl, rfl⟩

/-! ### Away-notification retry -/

theorem pollEmpty_pending (s : Settings) (ha : Nat → Bool)
    (hoff : s.offline_after ≠ 1) (c : String) (cnt : Int) (n : Nat)
    (tr : List (String × Bool × Bool)) :
    pollCore s ha [] ⟨[(c, 1)], cnt, n, tr⟩ =
      Except.ok ⟨(if ha n then [] else [(c, 1)]),
        (if ha n then (if cnt - 1 ≤ 0 then s.full_sync_polls else cnt - 1) else 0),
        n + 1, tr ++ [(c, false, ha n)]⟩ := by
  have hfs : full_sync s ha ⟨[(c, 1)], cnt, n, tr⟩ =
      ⟨[(c, 1)], (if cnt - 1 ≤ 0 then s.full_sync_polls else cnt - 1), n, tr⟩ := by
    by_cases hc : cnt - 1 ≤ 0 <;>
      simp [full_sync, fullSyncLoop, Ne.symm hoff, hc]
  unfold pollCore
  rw [hfs]
  cases hb : ha n <;>
    simp [seenLoop, awayLoop, awayStep, set_client_away, ha_seen,
      alGet, alSet, alErase, hb]

theorem pollSeq_append (s : Settings) (ha : Nat → Bool)
    (l₁ l₂ : List (List (String × JVal))) : ∀ (w : World),
    pollSeq s ha (l₁ ++ l₂) w =
      (match pollSeq s ha l₁ w with
       | Except.error e => Except.error e
       | Except.ok w₂ => pollSeq s ha l₂ w₂) := by
  induction l₁ with
  | nil => intro w; rfl
  | cons snap rest ih =>
    intro w
    simp only [List.cons_append, pollSeq]
    cases hpc : pollCore s ha snap w with
    | error e => rfl
    | ok w₂ => exact ih w₂

theorem c4_streak (s : Settings) (ha : Nat → Bool)
    (hoff : s.offline_after ≠ 1) (c : String) :
    ∀ (i : Nat) (cnt : Int) (n : Nat) (tr : List (String × Bool × Bool)),
    (∀ j, j < i → ha (n + j) = false) →
    ∃ cnt₂, pollSeq s ha (List.replicate i []) ⟨[(c, 1)], cnt, n, tr⟩ =
      Except.ok ⟨[(c, 1)], cnt₂, n + i, tr ++ List.replicate i (c, false, false)⟩ := by
  intro i
  induction i with
  | zero =>
    intro cnt n tr h
    exact ⟨cnt, by simp [pollSeq]⟩
  | succ i ih =>
    intro cnt n tr h
    have hb : ha n = false := by simpa using h 0 (Nat.succ_pos i)
    have hstep := pollEmpty_pending s ha hoff c cnt n tr
    simp only [hb, Bool.false_eq_true, if_false] at hstep
    obtain ⟨cnt₂, hrest⟩ := ih 0 (n + 1) (tr ++ [(c, false, false)])
      (fun j hj => by
        have h₂ : n + 1 + j = n + (j + 1) := by omega
        rw [h₂]
        exact h (j + 1) (by omega))
    refine ⟨cnt₂, ?_⟩
    rw [List.replicate_succ]
    simp only [pollSeq, hstep, hrest]
    have h₃ : n + 1 + i = n + (i + 1) := by omega
    rw [h₃]
    simp [List.replicate_succ]

/-- Claim C4: starting from a state whose table holds device c with
countdown 1 (the countdown reaches 0 on the next absent poll), with the
device absent from every snapshot, a hub that fails the next N calls and
succeeds on the one after behaves as claimed: after each of the first N
polls the countdown is exactly 1, the call count has grown by exactly one
away attempt per poll (the trace gains one (c, false, false) entry per
poll and nothing else), and only the (N+1)-st poll, whose away call
succeeds, removes the device from the table.  offline_after different from
1 keeps the resync pass from also notifying the retrying device. -/
theorem c4_retry_until_success (s : Settings) (ha : Nat → Bool) (c : String)
    (cnt : Int) (n : Nat) (tr : List (String × Bool × Bool)) (N : Nat)
    (hoff : s.offline_after ≠ 1)
    (hfail : ∀ j, j < N → ha (n + j) = false)
    (hsucc : ha (n + N) = true) :
    (∀ i, i ≤ N → ∃ cnt₂,
      pollSeq s ha (List.replicate i []) ⟨[(c, 1)], cnt, n, tr⟩ =
        Except.ok ⟨[(c, 1)], cnt₂, n + i,
          tr ++ List.replicate i (c, false, false)⟩) ∧
    (∃ cnt₃,
      pollSeq s ha (List.replicate (N + 1) []) ⟨[(c, 1)], cnt, n, tr⟩ =
        Except.ok ⟨[], cnt₃, n + (N + 1),
          tr ++ List.replicate N (c, false, false) ++ [(c, false, true)]⟩) := by
  constructor
  · intro i hi
    exact c4_streak s ha hoff c i cnt n tr (fun j hj => hfail j (by omega))
  · obtain ⟨cnt₂, hstreak⟩ :=
      c4_streak s ha hoff c N cnt n tr (fun j hj => hfail j hj)
    have hlast := pollEmpty_pending s ha hoff c cnt₂ (n + N)
      (tr ++ List.replicate N (c, false, false))
    simp only [hsucc, if_true] at hlast
    refine ⟨if cnt₂ - 1 ≤ 0 then s.full_sync_polls else cnt₂ - 1, ?_⟩
    have hrep : List.replicate (N + 1) ([] : List (String × JVal)) =
        List.replicate N [] ++ [[]] := by
      rw [List.replicate_add, List.replicate_one]
    rw [hrep, pollSeq_append]
    simp only [hstreak, pollSeq, hlast]
    have h₃ : n + N + 1 = n + (N + 1) := by omega
    rw [h₃]

/-- Witness for C4: device "aa" one poll from expiry, hub failing calls 0
and 1 and succeeding on call 2: two failing polls keep countdown 1, the
third poll removes the device. -/
theorem c4_witness :
    (sBase.offline_after ≠ 1) ∧
    (∀ j, j < 2 → (fun i => decide (i = 2)) (0 + j) = false) ∧
    ((fun i => decide (i = 2)) (0 + 2) = true) ∧
    ((∀ i, i ≤ 2 → ∃ cnt₂,
      pollSeq sBase (fun i => decide (i = 2)) (List.replicate i [])
          ⟨[("aa", 1)], 10, 0, []⟩ =
        Except.ok ⟨[("aa", 1)], cnt₂, 0 + i,
          [] ++ List.replicate i ("aa", false, false)⟩) ∧
    (∃ cnt₃,
      pollSeq sBase (fun i => decide (i = 2)) (List.replicate 3 [])
          ⟨[("aa", 1)], 10, 0, []⟩ =
        Except.ok ⟨[], cnt₃, 0 + 3,
          [] ++ List.replicate 2 ("aa", false, false) ++ [("aa", false, true)]⟩)) :=
  ⟨by decide, by decide, by decide,
    c4_retry_until_success sBase (fun i => decide (i = 2)) "aa" 10 0 [] 2
      (by decide) (by decide) (by decide)⟩

end PresenceDetector
